import Mathlib

/-!
Shallow embedding of the TikTok chunked-upload client (`uploader.py`) and
proofs about its chunk planning, session initiation, credential refresh,
and chunk transmission logic.

Python strings are modelled as Lean `String`s; the string operations the
code uses (`in`, `lower()`, `startswith`, slicing, `split`, `int()`)
are re-implemented structurally over `List Char` so that every
definition is executable and kernel-reducible.
-/

namespace TikTok

/-- Python `haystack.startswith(needle)` over character lists. -/
def listStartsWith : List Char → List Char → Bool
  | _, [] => true
  | [], _ :: _ => false
  | c :: cs, d :: ds => c = d && listStartsWith cs ds

/-- Python `needle in haystack` (substring containment) over character lists. -/
def listContainsSub : List Char → List Char → Bool
  | [], needle => needle.isEmpty
  | c :: cs, needle => listStartsWith (c :: cs) needle || listContainsSub cs needle

/-- Python `s.split(sep)` for a single-character separator.
Always returns at least one piece; adjacent separators yield empty pieces. -/
def splitOnChar (sep : Char) : List Char → List (List Char)
  | [] => [[]]
  | c :: cs =>
    let r := splitOnChar sep cs
    if c = sep then [] :: r
    else
      match r with
      | h :: t => (c :: h) :: t
      | [] => [[c]]

/-- Python `s.lower()`. `Char.toLower` only affects ASCII letters, as does
Python for the ASCII subset that the heuristics below search for. -/
def pyLower (s : String) : String := String.mk (s.data.map Char.toLower)

/-- Python `needle in haystack` on strings. -/
def pyContains (hay needle : String) : Bool := listContainsSub hay.data needle.data

/-- Python `s.strip()` as applied by `int()` to its argument. -/
def pyStripChars (l : List Char) : List Char :=
  ((l.dropWhile Char.isWhitespace).reverse.dropWhile Char.isWhitespace).reverse

/-- Digit-string accumulator for `pyInt`. -/
def digitsToNatAux : List Char → Nat → Option Nat
  | [], acc => some acc
  | c :: cs, acc =>
    if c.isDigit then digitsToNatAux cs (10 * acc + (c.toNat - 48)) else none

/-- Parse a nonempty all-digit character list. -/
def pyNatOfDigits : List Char → Option Nat
  | [] => none
  | l => digitsToNatAux l 0

/-- Python `int(s)`: strips surrounding whitespace, accepts an optional
sign followed by digits; anything else raises `ValueError`, modelled as
`none`. (Digit-group underscores accepted by CPython are not modelled;
no input relevant to this client contains them.) -/
def pyInt (s : List Char) : Option Int :=
  match pyStripChars s with
  | '-' :: rest => (pyNatOfDigits rest).map (fun n => -(n : Int))
  | '+' :: rest => (pyNatOfDigits rest).map (fun n => (n : Int))
  | t => (pyNatOfDigits t).map (fun n => (n : Int))

/-! Constants from the top of `uploader.py`. -/

def CHUNK_MIN_BYTES : Int := 5 * 1024 * 1024
def CHUNK_MAX_BYTES : Int := 64 * 1024 * 1024
def CHUNK_DEFAULT_BYTES : Int := 10 * 1024 * 1024
def MAX_CHUNKS : Int := 1000
def INIT_API : String := "https://open.tiktokapis.com/v2/post/publish/inbox/video/init/"
def DIRECT_POST_API : String := "https://open.tiktokapis.com/v2/post/publish/video/init/"

/-- `calc_chunk_params(file_size)`: returns `(chunk_size, total_chunk_count)`.
Python `//` is floor division, i.e. `Int.fdiv`. -/
def calc_chunk_params (file_size : Int) : Int × Int :=
  if file_size ≤ CHUNK_MAX_BYTES then (file_size, 1)
  else (CHUNK_DEFAULT_BYTES, file_size.fdiv CHUNK_DEFAULT_BYTES)

example : calc_chunk_params 26214400 = (26214400, 1) := by decide
example : calc_chunk_params 3145728 = (3145728, 1) := by decide
example : calc_chunk_params 67108865 = (10485760, 6) := by decide
example : calc_chunk_params 20971520000 = (10485760, 2000) := by decide
example : calc_chunk_params 0 = (0, 1) := by decide

instance {ε α : Type} [DecidableEq ε] [DecidableEq α] : DecidableEq (Except ε α) := fun x y =>
  match x, y with
  | .ok a, .ok b =>
    if h : a = b then isTrue (by rw [h]) else isFalse (by intro hh; injection hh; contradiction)
  | .error a, .error b =>
    if h : a = b then isTrue (by rw [h]) else isFalse (by intro hh; injection hh; contradiction)
  | .ok _, .error _ => isFalse (by intro hh; injection hh)
  | .error _, .ok _ => isFalse (by intro hh; injection hh)

/-! Python exceptions raised by the upload path. -/

inductive PyError where
  | fileNotFoundError (msg : String)
  | valueError (msg : String)
  | runtimeError (msg : String)
deriving DecidableEq

/-- The parsed JSON body of an init-endpoint response, as the fields
`init_upload` / `init_direct_post` read it: `error.code`, `error.message`
(with `resp.text` as the fallback for a missing message), and
`data.publish_id` / `data.upload_url` (absent keys modelled as `none`;
Python falsy empty strings are handled below exactly as `if not x` does). -/
structure InitResponse where
  errCode : Option String
  errMessage : Option String
  respText : String
  publishId : Option String
  uploadUrl : Option String
deriving DecidableEq

/-- `init_upload` response handling: everything after `resp.json()`.
Raises `RuntimeError` (modelled as `.error msg`) on a non-"ok" code or a
missing/empty `publish_id` / `upload_url`; returns the pair otherwise. -/
def init_upload (r : InitResponse) : Except String (String × String) :=
  if r.errCode = some "ok" then
    if r.publishId.getD "" = "" ∨ r.uploadUrl.getD "" = "" then
      .error "レスポンスに publish_id または upload_url がありません"
    else
      .ok (r.publishId.getD "", r.uploadUrl.getD "")
  else
    .error ("初期化失敗: " ++ r.errCode.getD "unknown" ++ " - " ++ r.errMessage.getD r.respText)

/-- `init_direct_post` parses its response identically to `init_upload`
(the two Python functions differ only in endpoint and request body). -/
def init_direct_post (r : InitResponse) : Except String (String × String) :=
  if r.errCode = some "ok" then
    if r.publishId.getD "" = "" ∨ r.uploadUrl.getD "" = "" then
      .error "レスポンスに publish_id または upload_url がありません"
    else
      .ok (r.publishId.getD "", r.uploadUrl.getD "")
  else
    .error ("初期化失敗: " ++ r.errCode.getD "unknown" ++ " - " ++ r.errMessage.getD r.respText)

/-- An HTTP response to a chunk PUT, as `upload_chunk` reads it:
status code, `headers.get("Content-Range", "")` (an absent header is the
empty string), and the body text. -/
structure ChunkResponse where
  status : Nat
  contentRange : String
  text : String
deriving DecidableEq

/-- The range segment of a Content-Range echo: Python
`cr[6:].split("/")[0]`. -/
def contentRangePart (cr : String) : List Char :=
  (splitOnChar '/' (cr.data.drop 6)).headD []

/-- `upload_chunk` response handling: everything after `requests.put`.
Accepts only HTTP 206 / 201; then mirrors the Content-Range parse:
`if cr.startswith("bytes ")`, take the piece before `/`, and if it
contains `-` return `int(piece.split("-")[1]) + 1` (a `ValueError` from
`int` propagates); otherwise fall back to `last_byte + 1`. -/
def upload_chunk (resp : ChunkResponse) (last_byte : Int) : Except PyError Int :=
  if resp.status = 206 ∨ resp.status = 201 then
    if listStartsWith resp.contentRange.data ("bytes ".data) then
      match splitOnChar '-' (contentRangePart resp.contentRange) with
      | _ :: second :: _ =>
        match pyInt second with
        | some n => .ok (n + 1)
        | none => .error (.valueError ("invalid literal for int() with base 10: " ++ String.mk second))
      | _ => .ok (last_byte + 1)
    else .ok (last_byte + 1)
  else
    .error (.runtimeError ("アップロード失敗: HTTP " ++ toString resp.status ++ " - " ++ String.mk (resp.text.data.take 500)))

example : upload_chunk ⟨206, "bytes 0-10485759/26214400", ""⟩ 10485759 = .ok 10485760 := by decide
example : upload_chunk ⟨206, "", ""⟩ 99 = .ok 100 := by decide
example : upload_chunk ⟨201, "bytes 0-99/100", ""⟩ 99 = .ok 100 := by decide
example : (upload_chunk ⟨500, "", "boom"⟩ 99).isOk = false := by decide
example : (upload_chunk ⟨206, "bytes 0-x/100", ""⟩ 99).isOk = false := by decide

/-- The condition `upload_file` / `go_public` test on a caught
`RuntimeError` before attempting a token refresh:
`"access_token" in str(e).lower() or "invalid" in str(e).lower() or
"expired" in str(e).lower()`. -/
def tokenErrorHeuristic (e : String) : Bool :=
  pyContains (pyLower e) "access_token" || pyContains (pyLower e) "invalid" ||
    pyContains (pyLower e) "expired"

/-- Modelled from the spec words (for comparison with the code): treat any
code/message containing "token" / "invalid" / "expired" case-insensitively
as AuthExpired. -/
def specTokenHeuristic (s : String) : Bool :=
  pyContains (pyLower s) "token" || pyContains (pyLower s) "invalid" ||
    pyContains (pyLower s) "expired"

/-- The server-echoed accepted-range upper bound that `upload_chunk`
extracts from a Content-Range header, when one can be parsed. -/
def echoUpper (cr : String) : Option Int :=
  if listStartsWith cr.data ("bytes ".data) then
    match splitOnChar '-' (contentRangePart cr) with
    | _ :: second :: _ => pyInt second
    | _ => none
  else none

/-- Exactly the responses on which `upload_chunk` raises: a status other
than 206/201, or an accepted status whose Content-Range echo has the
"bytes " prefix and a hyphen in its range piece but a non-integer after
the hyphen (which makes `int()` raise `ValueError`). -/
def chunkSendFails (resp : ChunkResponse) : Bool :=
  if resp.status = 206 ∨ resp.status = 201 then
    listStartsWith resp.contentRange.data ("bytes ".data) &&
      (match splitOnChar '-' (contentRangePart resp.contentRange) with
       | _ :: second :: _ => (pyInt second).isNone
       | _ => false)
  else true

/-- The `post_info` block built in `go_public`. -/
structure PostInfo where
  title : String
  privacy_level : String
  disable_duet : Bool
  disable_stitch : Bool
  disable_comment : Bool
  video_cover_timestamp_ms : Int
  brand_content_toggle : Bool
  brand_organic_toggle : Bool
deriving DecidableEq

/-- The constant video parameters hard-coded at the top of `go_public`. -/
def defaultPostInfo : PostInfo :=
  { title := "千葉に住んでいる宇宙人から来た存在 #shorts #雑学"
    privacy_level := "SELF_ONLY"
    disable_duet := false
    disable_stitch := false
    disable_comment := false
    video_cover_timestamp_ms := 1000
    brand_content_toggle := false
    brand_organic_toggle := false }

/-- One request to an init endpoint: the endpoint URL, the bearer token,
the `source_info` fields, and (for direct post only) the `post_info`. -/
structure InitReq where
  endpoint : String
  token : String
  video_size : Int
  chunk_size : Int
  total_chunk_count : Int
  post_info : Option PostInfo
deriving DecidableEq

/-- Builds the init request exactly as the orchestrators pass their
arguments: the plan pair `p` is computed once by `calc_chunk_params`. -/
def initRequest (endpoint tok : String) (vs : Int) (p : Int × Int) (pinfo : Option PostInfo) : InitReq :=
  ⟨endpoint, tok, vs, p.1, p.2, pinfo⟩

/-- The observable network actions of one upload run, in order. -/
inductive Event where
  | initCall (req : InitReq)
  | refreshCall
  | chunkPut (url : String) (first_byte last_byte len : Int)
deriving DecidableEq

/-- Projects a chunk PUT to its transmitted `(first_byte, len)` range. -/
def Event.chunkRange : Event → Option (Int × Int)
  | .chunkPut _ first _ len => some (first, len)
  | _ => none

/-- The chunk PUT ranges of a transcript, in transmission order. -/
def chunkEvents (tr : List Event) : List (Int × Int) := tr.filterMap Event.chunkRange

/-- The environment of one run: file-system facts and the behaviour of the
remote endpoints. `initResp` is the parsed body served for an init
request; `refreshResult` is what `refresh_access_token()` returns (its
internals read `.env` and call the token endpoint, abstracted here as an
oracle, `none` meaning refresh failed); `chunkResp` is the response to the
`i`-th chunk PUT. -/
structure World where
  isFile : Bool
  fileSize : Int
  initResp : InitReq → InitResponse
  refreshResult : Option String
  chunkResp : Nat → ChunkResponse

/-- The chunk loop of `upload_file` / `go_public`. The file handle is
modelled by the current read position `pos`; `f.read(chunk_size)` yields
`min chunk_size (remaining)` bytes and the final `f.read()` yields all
remaining bytes. The header start is recomputed as `i * chunk_size` and
`last = start + len - 1`. The argument after the position is the number of
iterations left (`total_chunk_count - i`); the final iteration is the one
where it is 1. A failed `upload_chunk` aborts the loop (the exception
propagates); the returned acknowledged-bytes value is discarded, exactly
as in the source. -/
def chunkLoop (w : World) (url : String) (totalSize cs : Int) : Nat → Nat → Int → List Event × Except PyError Unit
  | 0, _, _ => ([], .ok ())
  | 1, i, pos =>
    let len : Int := max 0 (totalSize - pos)
    let first : Int := (i : Int) * cs
    let last : Int := first + len - 1
    match upload_chunk (w.chunkResp i) last with
    | .error e => ([Event.chunkPut url first last len], .error e)
    | .ok _ =>
      let rest := chunkLoop w url totalSize cs 0 (i + 1) (pos + len)
      (Event.chunkPut url first last len :: rest.1, rest.2)
  | k + 2, i, pos =>
    let len : Int := max 0 (min cs (totalSize - pos))
    let first : Int := (i : Int) * cs
    let last : Int := first + len - 1
    match upload_chunk (w.chunkResp i) last with
    | .error e => ([Event.chunkPut url first last len], .error e)
    | .ok _ =>
      let rest := chunkLoop w url totalSize cs (k + 1) (i + 1) (pos + len)
      (Event.chunkPut url first last len :: rest.1, rest.2)

/-- `upload_file(access_token, path)`, returning the transcript of network
actions together with the Python result (`publish_id` or the exception).
Mirrors the source: file checks, one plan computation, `init_upload`
guarded by `except RuntimeError` with the token heuristic, at most one
refresh and one retry, then the chunk loop. -/
def upload_file (w : World) (access_token : String) : List Event × Except PyError String :=
  if w.isFile = false then
    ([], .error (.fileNotFoundError "ファイルが見つかりません"))
  else if w.fileSize ≤ 0 then
    ([], .error (.valueError "空のファイルはアップロードできません"))
  else
    let p := calc_chunk_params w.fileSize
    let req1 := initRequest INIT_API access_token w.fileSize p none
    match init_upload (w.initResp req1) with
    | .ok pu =>
      let rest := chunkLoop w pu.2 w.fileSize p.1 p.2.toNat 0 0
      (Event.initCall req1 :: rest.1, rest.2.map fun _ => pu.1)
    | .error e =>
      if tokenErrorHeuristic e then
        match w.refreshResult with
        | some newTok =>
          let req2 := initRequest INIT_API newTok w.fileSize p none
          match init_upload (w.initResp req2) with
          | .ok pu =>
            let rest := chunkLoop w pu.2 w.fileSize p.1 p.2.toNat 0 0
            (Event.initCall req1 :: Event.refreshCall :: Event.initCall req2 :: rest.1,
             rest.2.map fun _ => pu.1)
          | .error e2 =>
            ([Event.initCall req1, Event.refreshCall, Event.initCall req2],
             .error (.runtimeError e2))
        | none =>
          ([Event.initCall req1, Event.refreshCall],
           .error (.runtimeError "トークンの自動更新に失敗しました。uv run auth.py で再認証してください。"))
      else ([Event.initCall req1], .error (.runtimeError e))

/-- `go_public(access_token, path)`: identical control flow to
`upload_file` except that it posts to the direct-post endpoint with the
hard-coded `post_info` block. -/
def go_public (w : World) (access_token : String) : List Event × Except PyError String :=
  if w.isFile = false then
    ([], .error (.fileNotFoundError "ファイルが見つかりません"))
  else if w.fileSize ≤ 0 then
    ([], .error (.valueError "空のファイルはアップロードできません"))
  else
    let p := calc_chunk_params w.fileSize
    let req1 := initRequest DIRECT_POST_API access_token w.fileSize p (some defaultPostInfo)
    match init_direct_post (w.initResp req1) with
    | .ok pu =>
      let rest := chunkLoop w pu.2 w.fileSize p.1 p.2.toNat 0 0
      (Event.initCall req1 :: rest.1, rest.2.map fun _ => pu.1)
    | .error e =>
      if tokenErrorHeuristic e then
        match w.refreshResult with
        | some newTok =>
          let req2 := initRequest DIRECT_POST_API newTok w.fileSize p (some defaultPostInfo)
          match init_direct_post (w.initResp req2) with
          | .ok pu =>
            let rest := chunkLoop w pu.2 w.fileSize p.1 p.2.toNat 0 0
            (Event.initCall req1 :: Event.refreshCall :: Event.initCall req2 :: rest.1,
             rest.2.map fun _ => pu.1)
          | .error e2 =>
            ([Event.initCall req1, Event.refreshCall, Event.initCall req2],
             .error (.runtimeError e2))
        | none =>
          ([Event.initCall req1, Event.refreshCall],
           .error (.runtimeError "トークンの自動更新に失敗しました。uv run auth.py で再認証してください。"))
      else ([Event.initCall req1], .error (.runtimeError e))

/-- `chainCovers a rs b` holds when the ranges `rs`, taken in order, are
nonempty, adjacent and gap-free: each starts where its predecessor ended,
the first starts at `a` and the last ends at `b`. Such a list exactly
covers `[a, b)` with pairwise disjoint ranges in strictly ascending
order. -/
def chainCovers (a : Int) : List (Int × Int) → Int → Bool
  | [], b => a == b
  | (s, l) :: rest, b => s == a && decide (0 < l) && chainCovers (a + l) rest b

/-- The byte ranges `(start, len)` the chunk loop transmits for a plan
`(cs, chunk count)` over a file of size `ts`, starting at chunk index `i`
with the given number of chunks left: full `cs`-sized chunks, the final
chunk absorbing all remaining bytes. -/
def idealRanges (ts cs : Int) : Nat → Nat → List (Int × Int)
  | _, 0 => []
  | i, 1 => [((i : Int) * cs, ts - (i : Int) * cs)]
  | i, k + 2 => ((i : Int) * cs, cs) :: idealRanges ts cs (i + 1) (k + 1)

example :
    upload_file
      { isFile := true, fileSize := 100,
        initResp := fun _ => ⟨some "ok", none, "", some "pid1", some "u"⟩,
        refreshResult := none, chunkResp := fun _ => ⟨201, "", ""⟩ } "tok" =
    ([Event.initCall (initRequest INIT_API "tok" 100 (100, 1) none),
      Event.chunkPut "u" 0 99 100], .ok "pid1") := by rfl

example :
    upload_file
      { isFile := true, fileSize := 100,
        initResp := fun _ => ⟨some "access_token_invalid", some "bad token", "", none, none⟩,
        refreshResult := none, chunkResp := fun _ => ⟨201, "", ""⟩ } "tok" =
    ([Event.initCall (initRequest INIT_API "tok" 100 (100, 1) none), Event.refreshCall],
     .error (.runtimeError "トークンの自動更新に失敗しました。uv run auth.py で再認証してください。")) := by rfl

example : chainCovers 0 [(0, 60), (60, 40)] 100 = true := by decide
example : idealRanges 100 100 0 1 = [(0, 100)] := by decide

/-! Facts about the chunk plan for a positive file size. -/

lemma calc_cs_pos (ts : Int) (h : 0 < ts) : 0 < (calc_chunk_params ts).1 := by
  unfold calc_chunk_params
  split
  · exact h
  · norm_num [CHUNK_DEFAULT_BYTES]

lemma calc_cnt_pos (ts : Int) (_h : 0 < ts) : 1 ≤ (calc_chunk_params ts).2.toNat := by
  unfold calc_chunk_params
  split
  · simp
  · rename_i hgt
    rw [show CHUNK_DEFAULT_BYTES = (10485760 : Int) by norm_num [CHUNK_DEFAULT_BYTES],
      Int.fdiv_eq_ediv _ (by norm_num)]
    simp only [CHUNK_MAX_BYTES] at hgt
    omega

lemma calc_last_lt (ts : Int) (h : 0 < ts) :
    (((calc_chunk_params ts).2.toNat : Int) - 1) * (calc_chunk_params ts).1 < ts := by
  unfold calc_chunk_params
  split
  · simpa using h
  · rename_i hgt
    rw [show CHUNK_DEFAULT_BYTES = (10485760 : Int) by norm_num [CHUNK_DEFAULT_BYTES],
      Int.fdiv_eq_ediv _ (by norm_num)]
    simp only [CHUNK_MAX_BYTES] at hgt
    omega

/-- A chunk transmission raises exactly when `chunkSendFails` says so:
the status is neither 206 nor 201, or the Content-Range echo has the
"bytes " prefix and a hyphen but a non-integer upper bound. -/
lemma upload_chunk_isOk_iff (resp : ChunkResponse) (last_byte : Int) :
    (upload_chunk resp last_byte).isOk = false ↔ chunkSendFails resp = true := by
  unfold upload_chunk chunkSendFails
  split
  · cases hb : listStartsWith resp.contentRange.data ("bytes ".data)
    · simp [Except.isOk, Except.toBool]
    · rcases hs : splitOnChar '-' (contentRangePart resp.contentRange) with _ | ⟨a, _ | ⟨b, t⟩⟩
      · simp [Except.isOk, Except.toBool]
      · simp [Except.isOk, Except.toBool]
      · rcases hp : pyInt b with _ | n <;> simp [hp, Except.isOk, Except.toBool]
  · simp [Except.isOk, Except.toBool]

@[simp] lemma isOk_ok {ε α : Type} (a : α) : (Except.ok a : Except ε α).isOk = true := rfl

@[simp] lemma isOk_error {ε α : Type} (e : ε) : (Except.error e : Except ε α).isOk = false := rfl

@[simp] lemma isOk_map {ε α β : Type} (f : α → β) (x : Except ε α) :
    (x.map f).isOk = x.isOk := by cases x <;> rfl

/-! Facts about the chunk loop. -/

/-- Every non-empty iteration of the chunk loop has the same shape: one
PUT whose outcome either aborts the loop or is followed by the rest. -/
lemma chunkLoop_succ_shape (w : World) (url : String) (ts cs : Int) (k i : Nat) (pos : Int) :
    ∃ len : Int, chunkLoop w url ts cs (k + 1) i pos =
      match upload_chunk (w.chunkResp i) ((i : Int) * cs + len - 1) with
      | .error e => ([Event.chunkPut url ((i : Int) * cs) ((i : Int) * cs + len - 1) len], .error e)
      | .ok _ =>
        (Event.chunkPut url ((i : Int) * cs) ((i : Int) * cs + len - 1) len ::
          (chunkLoop w url ts cs k (i + 1) (pos + len)).1,
         (chunkLoop w url ts cs k (i + 1) (pos + len)).2) := by
  cases k with
  | zero => exact ⟨max 0 (ts - pos), by simp only [chunkLoop]⟩
  | succ k2 => exact ⟨max 0 (min cs (ts - pos)), by simp only [chunkLoop]⟩

lemma chunkLoop_no_refresh (w : World) (url : String) (ts cs : Int) :
    ∀ k i pos, Event.refreshCall ∉ (chunkLoop w url ts cs k i pos).1 := by
  intro k
  induction k with
  | zero => intro i pos; simp [chunkLoop]
  | succ k ih =>
    intro i pos
    obtain ⟨len, hsh⟩ := chunkLoop_succ_shape w url ts cs k i pos
    rw [hsh]
    rcases h : upload_chunk (w.chunkResp i) ((i : Int) * cs + len - 1) with e | v <;>
      simp [h, ih]

lemma chunkEvents_chunkLoop (w : World) (url : String) (ts cs : Int) :
    ∀ k i pos,
      (chunkEvents (chunkLoop w url ts cs k i pos).1).length = (chunkLoop w url ts cs k i pos).1.length := by
  intro k
  induction k with
  | zero => intro i pos; simp [chunkLoop, chunkEvents]
  | succ k ih =>
    intro i pos
    obtain ⟨len, hsh⟩ := chunkLoop_succ_shape w url ts cs k i pos
    rw [hsh]
    rcases h : upload_chunk (w.chunkResp i) ((i : Int) * cs + len - 1) with e | v
    · simp [h, chunkEvents, Event.chunkRange]
    · simp only [h, chunkEvents, List.filterMap_cons, Event.chunkRange, List.length_cons]
      have := ih (i + 1) (pos + len)
      simp only [chunkEvents] at this
      omega

/-- A run of the chunk loop that completes successfully transmits exactly
the ideal ranges: full chunks of size `cs` until the final chunk, which
reads all remaining bytes. -/
lemma chunkLoop_ok_events (w : World) (url : String) {ts cs : Int} (hcs : 0 < cs) :
    ∀ (k i : Nat) (pos : Int), pos = (i : Int) * cs → ((i : Int) + (k : Int) - 1) * cs < ts →
      (chunkLoop w url ts cs k i pos).2 = .ok () →
      (chunkLoop w url ts cs k i pos).1 =
        (idealRanges ts cs i k).map fun r => Event.chunkPut url r.1 (r.1 + r.2 - 1) r.2 := by
  intro k
  induction k with
  | zero => intro i pos _ _ _; simp [chunkLoop, idealRanges]
  | succ k ih =>
    intro i pos hpos hlt hok
    subst hpos
    cases k with
    | zero =>
      have hi : (i : Int) * cs < ts := by push_cast at hlt; linarith
      have hlen : max 0 (ts - (i : Int) * cs) = ts - (i : Int) * cs :=
        max_eq_right (by linarith)
      simp only [chunkLoop, hlen] at hok ⊢
      rcases h : upload_chunk (w.chunkResp i) ((i : Int) * cs + (ts - (i : Int) * cs) - 1) with e | v
      · rw [h] at hok; simp at hok
      · rw [h] at hok
        dsimp only at hok ⊢
        simp [idealRanges]
    | succ k2 =>
      have hstep : ((i : Int) + 1) * cs ≤ ts := by
        have h1 : ((i : Int) + 1) * cs ≤ ((i : Int) + (k2 : Int) + 1) * cs := by
          have : ((i : Int) + 1) ≤ (i : Int) + (k2 : Int) + 1 := by
            have : (0 : Int) ≤ (k2 : Int) := Int.natCast_nonneg k2
            linarith
          exact mul_le_mul_of_nonneg_right this (le_of_lt hcs)
        have h2 : ((i : Int) + (k2 : Int) + 1) * cs < ts := by push_cast at hlt; linarith
        linarith
      have hlen : max 0 (min cs (ts - (i : Int) * cs)) = cs := by
        have : cs ≤ ts - (i : Int) * cs := by nlinarith
        rw [min_eq_left this]
        exact max_eq_right (le_of_lt hcs)
      simp only [chunkLoop, hlen] at hok ⊢
      rcases h : upload_chunk (w.chunkResp i) ((i : Int) * cs + cs - 1) with e | v
      · rw [h] at hok; simp at hok
      · rw [h] at hok
        dsimp only at hok ⊢
        have hpos2 : (i : Int) * cs + cs = ((i + 1 : Nat) : Int) * cs := by push_cast; ring
        have hlt2 : (((i + 1 : Nat) : Int) + ((k2 + 1 : Nat) : Int) - 1) * cs < ts := by
          push_cast at hlt ⊢; linarith
        have hrec := ih (i + 1) ((i : Int) * cs + cs) hpos2 hlt2 hok
        rw [show k2 + 1 + 1 = k2 + 2 from rfl]
        simp only [idealRanges, List.map_cons, List.cons.injEq]
        exact ⟨by trivial, hrec⟩

/-- If the response to the `j`-th chunk PUT is a failing one, the loop
never gets past chunk `j`: at most `j + 1 - i` PUTs happen when starting
at chunk `i`, and a loop that completes successfully never even reached
chunk `j`. In particular a failed chunk is never retried and nothing is
transmitted after it. -/
lemma chunkLoop_abort_count (w : World) (url : String) (ts cs : Int) (j : Nat)
    (hj : chunkSendFails (w.chunkResp j) = true) :
    ∀ (k i : Nat) (pos : Int), i ≤ j →
      (chunkLoop w url ts cs k i pos).1.length ≤ j + 1 - i ∧
      ((chunkLoop w url ts cs k i pos).2.isOk = true →
        (chunkLoop w url ts cs k i pos).1.length ≤ j - i) := by
  intro k
  induction k with
  | zero => intro i pos hij; simp [chunkLoop]
  | succ k ih =>
    intro i pos hij
    obtain ⟨len, hsh⟩ := chunkLoop_succ_shape w url ts cs k i pos
    rw [hsh]
    rcases h : upload_chunk (w.chunkResp i) ((i : Int) * cs + len - 1) with e | v
    · constructor
      · simp; omega
      · intro hOk; simp at hOk
    · have hne : i ≠ j := by
        intro he
        have hfail := (upload_chunk_isOk_iff (w.chunkResp i) ((i : Int) * cs + len - 1)).mpr
          (he ▸ hj)
        rw [h] at hfail
        simp at hfail
      have hrec := ih (i + 1) (pos + len) (by omega)
      constructor
      · simp only [List.length_cons]
        omega
      · intro hOk
        simp only at hOk
        have := hrec.2 hOk
        simp only [List.length_cons]
        omega

/-- The ideal ranges written out explicitly: chunk `j` starts at byte
`j * cs`; every chunk has length `cs` except the last, which extends to
the end of the file. -/
lemma idealRanges_eq_map (ts cs : Int) : ∀ (k i : Nat), idealRanges ts cs i k =
    (List.range' i k).map fun (j : Nat) =>
      ((j : Int) * cs, if j = i + k - 1 then ts - (j : Int) * cs else cs)
  | 0, i => by simp [idealRanges]
  | 1, i => by simp [idealRanges, List.range']
  | (k + 2), i => by
    have ih := idealRanges_eq_map ts cs (k + 1) (i + 1)
    simp only [show (i + 1) + (k + 1) - 1 = i + (k + 2) - 1 from by omega] at ih
    simp only [idealRanges]
    rw [show List.range' i (k + 2) = i :: List.range' (i + 1) (k + 1) from rfl,
      List.map_cons, if_neg (by omega), ih]

/-- The ideal ranges for a plan whose last chunk starts strictly inside
the file chain together to cover `[i * cs, ts)` exactly. -/
lemma idealRanges_chain (ts cs : Int) (hcs : 0 < cs) : ∀ (k i : Nat), 1 ≤ k →
    ((i : Int) + (k : Int) - 1) * cs < ts →
    chainCovers ((i : Int) * cs) (idealRanges ts cs i k) ts = true
  | 0, _, h1, _ => absurd h1 (by norm_num)
  | 1, i, _, hlt => by
    have hi : (i : Int) * cs < ts := by push_cast at hlt; linarith
    simp only [idealRanges, chainCovers]
    simp only [Bool.and_eq_true, beq_iff_eq, decide_eq_true_eq]
    refine ⟨⟨by trivial, by linarith⟩, ?_⟩
    ring_nf
  | (k + 2), i, _, hlt => by
    have hk2 : ((i : Int) + 1) + ((k + 1 : Nat) : Int) - 1 = (i : Int) + ((k + 2 : Nat) : Int) - 1 := by
      push_cast; ring
    have hrec := idealRanges_chain ts cs hcs (k + 1) (i + 1) (by omega)
      (by rw [show (((i + 1 : Nat) : Int) + ((k + 1 : Nat) : Int) - 1) = (i : Int) + ((k + 2 : Nat) : Int) - 1 from by push_cast; ring]; exact hlt)
    simp only [idealRanges, chunkLoop, chainCovers]
    simp only [Bool.and_eq_true, beq_iff_eq, decide_eq_true_eq]
    refine ⟨⟨by trivial, hcs⟩, ?_⟩
    rw [show (i : Int) * cs + cs = ((i + 1 : Nat) : Int) * cs from by push_cast; ring]
    exact hrec

/-- Every `upload_file` run either stops before transmitting anything
(with a failure), or reaches the chunk loop: its transcript is a
chunk-free prefix followed by the loop transcript for the computed plan,
and it succeeds exactly when the loop does. -/
lemma upload_file_shape (w : World) (tok : String) :
    (chunkEvents (upload_file w tok).1 = [] ∧ (upload_file w tok).2.isOk = false)
    ∨ (0 < w.fileSize ∧ ∃ pre url,
        (upload_file w tok).1 =
          pre ++ (chunkLoop w url w.fileSize (calc_chunk_params w.fileSize).1
            (calc_chunk_params w.fileSize).2.toNat 0 0).1 ∧
        chunkEvents pre = [] ∧
        (upload_file w tok).2.isOk =
          (chunkLoop w url w.fileSize (calc_chunk_params w.fileSize).1
            (calc_chunk_params w.fileSize).2.toNat 0 0).2.isOk) := by
  unfold upload_file
  by_cases hf : w.isFile = false
  · rw [if_pos hf]
    left
    simp [chunkEvents]
  · rw [if_neg hf]
    by_cases hz : w.fileSize ≤ 0
    · rw [if_pos hz]
      left
      simp [chunkEvents]
    · rw [if_neg hz]
      push_neg at hz
      dsimp only
      rcases h1 : init_upload (w.initResp (initRequest INIT_API tok w.fileSize (calc_chunk_params w.fileSize) none)) with e | pu
      · dsimp only
        by_cases hh : tokenErrorHeuristic e = true
        · rw [if_pos hh]
          rcases hr : w.refreshResult with _ | t
          · dsimp only
            left
            simp [chunkEvents, Event.chunkRange]
          · dsimp only
            rcases h2 : init_upload (w.initResp (initRequest INIT_API t w.fileSize (calc_chunk_params w.fileSize) none)) with e2 | pu2
            · dsimp only
              left
              simp [chunkEvents, Event.chunkRange]
            · dsimp only
              right
              refine ⟨hz, [Event.initCall (initRequest INIT_API tok w.fileSize (calc_chunk_params w.fileSize) none),
                Event.refreshCall,
                Event.initCall (initRequest INIT_API t w.fileSize (calc_chunk_params w.fileSize) none)], pu2.2, ?_, ?_, ?_⟩
              · simp
              · simp [chunkEvents, Event.chunkRange]
              · simp
        · rw [if_neg hh]
          left
          simp [chunkEvents, Event.chunkRange]
      · dsimp only
        right
        refine ⟨hz, [Event.initCall (initRequest INIT_API tok w.fileSize (calc_chunk_params w.fileSize) none)], pu.2, ?_, ?_, ?_⟩
        · simp
        · simp [chunkEvents, Event.chunkRange]
        · simp

/-! Claim theorems. -/

/-- C4: for every totalSize with 0 < totalSize ≤ 64 MiB (67108864 bytes),
the chunk planner returns chunkSize = totalSize and chunkCount = 1. -/
theorem c4_small_file_single_chunk (n : Int) (_h1 : 0 < n) (h2 : n ≤ 67108864) :
    calc_chunk_params n = (n, 1) := by
  unfold calc_chunk_params
  rw [if_pos (by simp only [CHUNK_MAX_BYTES]; omega)]

theorem c4_small_file_single_chunk_witness :
    calc_chunk_params 3145728 = (3145728, 1) :=
  c4_small_file_single_chunk 3145728 (by decide) (by decide)

/-- C5 counterexample: for totalSize = 2000 * 10 MiB the planner returns
chunkCount = 2000 > 1000 and leaves chunkSize at 10 MiB — no
ceiling or chunk-count adjustment exists in the code (the MAX_CHUNKS constant is
never used). -/
theorem c5_counterexample_no_chunk_cap :
    calc_chunk_params 20971520000 = (10485760, 2000) ∧ MAX_CHUNKS < 2000 := by
  constructor <;> decide

/-- C5 amended: for every totalSize > 64 MiB the planner returns
chunkSize = 10 MiB and chunkCount = floor(totalSize / 10 MiB),
unconditionally — even when that count exceeds 1000. -/
theorem c5_large_file_plan (n : Int) (h : 67108864 < n) :
    calc_chunk_params n = (10485760, n / 10485760) := by
  unfold calc_chunk_params
  rw [if_neg (by simp only [CHUNK_MAX_BYTES]; omega)]
  rw [show CHUNK_DEFAULT_BYTES = (10485760 : Int) from by norm_num [CHUNK_DEFAULT_BYTES]]
  rw [Int.fdiv_eq_ediv _ (by norm_num)]

theorem c5_large_file_plan_witness :
    calc_chunk_params 67108865 = (10485760, 6) := by
  have h := c5_large_file_plan 67108865 (by decide)
  rw [h]
  decide

/-- C6 counterexample: 25 MiB = 26214400 ≤ 64 MiB, so the planner takes
the single-chunk branch; the plan is (25 MiB, 1), not (10 MiB, 2). -/
theorem c6_counterexample_25mib_single_chunk :
    calc_chunk_params 26214400 = (26214400, 1) ∧ calc_chunk_params 26214400 ≠ (10485760, 2) := by
  constructor <;> decide

/-- C6 amended: for totalSize = 25 MiB the planner produces the plan
chunkSize = 25 MiB, chunkCount = 1 (a single chunk carrying the whole
file). -/
theorem c6_25mib_plan : calc_chunk_params 26214400 = (26214400, 1) := by decide

/-- C7 counterexample: the planner itself does not fail on
totalSize ≤ 0 — it returns the degenerate plan (totalSize, 1). -/
theorem c7_counterexample_planner_accepts_nonpositive :
    calc_chunk_params 0 = (0, 1) ∧ calc_chunk_params (-5) = (-5, 1) := by
  constructor <;> decide

/-- C7 amended: the totalSize ≤ 0 check lives in the orchestrator, which
fails with a ValueError (InvalidInput/EmptyFile) before the planner is
consulted and before any request is sent. -/
theorem c7_orchestrator_rejects_nonpositive (w : World) (tok : String)
    (hf : w.isFile = true) (hz : w.fileSize ≤ 0) :
    upload_file w tok = ([], .error (.valueError "空のファイルはアップロードできません")) := by
  unfold upload_file
  rw [if_neg (by simp [hf]), if_pos hz]

def wEmpty : World :=
  { isFile := true, fileSize := 0,
    initResp := fun _ => ⟨some "ok", none, "", some "p", some "u"⟩,
    refreshResult := none, chunkResp := fun _ => ⟨201, "", ""⟩ }

theorem c7_orchestrator_rejects_nonpositive_witness :
    upload_file wEmpty "tok" = ([], .error (.valueError "空のファイルはアップロードできません")) :=
  c7_orchestrator_rejects_nonpositive wEmpty "tok" rfl (by decide)

/-- Helper for C8: the value a successful chunk transmission returns is
determined by the parsed Content-Range echo, with `last_byte + 1` as the
fallback. -/
lemma upload_chunk_ok_value (resp : ChunkResponse) (last_byte n : Int)
    (h : upload_chunk resp last_byte = .ok n) :
    n = (echoUpper resp.contentRange).elim (last_byte + 1) (· + 1) := by
  unfold upload_chunk at h
  unfold echoUpper
  by_cases hst : (resp.status = 206 ∨ resp.status = 201)
  · rw [if_pos hst] at h
    cases hb : listStartsWith resp.contentRange.data ("bytes ".data)
    · rw [hb] at h
      simp only [Bool.false_eq_true, if_false] at h
      simp only [hb, Bool.false_eq_true, if_false, Option.elim]
      exact (Except.ok.inj h).symm
    · rw [hb] at h
      simp only [if_true] at h
      simp only [hb, if_true]
      rcases hs : splitOnChar '-' (contentRangePart resp.contentRange) with _ | ⟨a, _ | ⟨b, t⟩⟩ <;>
        rw [hs] at h <;> dsimp only at h ⊢
      · exact (Except.ok.inj h).symm
      · exact (Except.ok.inj h).symm
      · rcases hp : pyInt b with _ | u <;> rw [hp] at h <;> dsimp only at h ⊢
        · exact absurd h (by simp)
        · exact (Except.ok.inj h).symm
  · rw [if_neg hst] at h
    exact absurd h (by simp)

/-- C8: whenever a chunk transmission succeeds, the returned
newBytesAcknowledged is the parsed accepted-range upper bound plus one
when the echo parses, and rangeEndInclusive + 1 otherwise; the 206
response with `Content-Range: bytes 0-10485759/26214400` yields
10485760. -/
theorem c8_ack_from_echo (resp : ChunkResponse) (last_byte n : Int)
    (h : upload_chunk resp last_byte = .ok n) :
    (∀ u, echoUpper resp.contentRange = some u → n = u + 1)
    ∧ (echoUpper resp.contentRange = none → n = last_byte + 1)
    ∧ upload_chunk ⟨206, "bytes 0-10485759/26214400", ""⟩ 10485759 = .ok 10485760 := by
  refine ⟨?_, ?_, by decide⟩
  · intro u hu
    have hv := upload_chunk_ok_value resp last_byte n h
    rw [hu] at hv
    simpa using hv
  · intro hu
    have hv := upload_chunk_ok_value resp last_byte n h
    rw [hu] at hv
    simpa using hv

theorem c8_ack_from_echo_witness :
    upload_chunk ⟨206, "bytes 0-10485759/26214400", ""⟩ 10485759 = .ok 10485760 ∧
      (10485760 : Int) = 10485759 + 1 :=
  ⟨(c8_ack_from_echo ⟨206, "bytes 0-10485759/26214400", ""⟩ 10485759 10485760 (by decide)).2.2,
   (c8_ack_from_echo ⟨206, "bytes 0-10485759/26214400", ""⟩ 10485759 10485760 (by decide)).1
      10485759 (by decide)⟩

/-- C9 counterexample: an HTTP 206 response whose Content-Range echo has a
hyphen but a non-integer upper bound ("bytes 0-x/100") makes the
transmission fail (ValueError from `int()`) although the status is 206 —
refuting "fails iff the status is neither 206 nor 201". -/
theorem c9_counterexample_206_can_fail :
    (⟨206, "bytes 0-x/100", ""⟩ : ChunkResponse).status = 206 ∧
    (upload_chunk ⟨206, "bytes 0-x/100", ""⟩ 99).isOk = false := by
  constructor <;> decide

/-- C9 amended: a chunk transmission fails iff the status is neither 206
nor 201, or the status is accepted but the Content-Range echo has the
"bytes " prefix and a hyphen with a non-integer upper bound; and whenever
the response to chunk `j` is a failing one, the whole upload sends at most
`j + 1` chunk PUTs (the failed chunk is never retried, nothing is sent
after it), and a run that succeeds never reached chunk `j`. -/
theorem c9_failure_characterization_and_abort :
    (∀ (resp : ChunkResponse) (last_byte : Int),
        (upload_chunk resp last_byte).isOk = false ↔ chunkSendFails resp = true)
    ∧ (∀ (w : World) (tok : String) (j : Nat), chunkSendFails (w.chunkResp j) = true →
        (chunkEvents (upload_file w tok).1).length ≤ j + 1 ∧
        ((upload_file w tok).2.isOk = true → (chunkEvents (upload_file w tok).1).length ≤ j)) := by
  constructor
  · exact upload_chunk_isOk_iff
  · intro w tok j hj
    rcases upload_file_shape w tok with ⟨hemp, hfail⟩ | ⟨_, pre, url, htr, hpre, hok⟩
    · rw [hemp]
      constructor
      · simp
      · intro hOk
        rw [hfail] at hOk
        cases hOk
    · have hcount := chunkLoop_abort_count w url w.fileSize (calc_chunk_params w.fileSize).1 j hj
        (calc_chunk_params w.fileSize).2.toNat 0 0 (Nat.zero_le j)
      have hlen := chunkEvents_chunkLoop w url w.fileSize (calc_chunk_params w.fileSize).1
        (calc_chunk_params w.fileSize).2.toNat 0 0
      rw [htr]
      have hsplit : chunkEvents (pre ++ (chunkLoop w url w.fileSize (calc_chunk_params w.fileSize).1
          (calc_chunk_params w.fileSize).2.toNat 0 0).1) =
          chunkEvents pre ++ chunkEvents (chunkLoop w url w.fileSize (calc_chunk_params w.fileSize).1
            (calc_chunk_params w.fileSize).2.toNat 0 0).1 := by
        simp [chunkEvents]
      rw [hsplit, hpre, List.nil_append]
      constructor
      · omega
      · intro hOk
        rw [hok] at hOk
        have := hcount.2 hOk
        omega

def wFail : World :=
  { isFile := true, fileSize := 100,
    initResp := fun _ => ⟨some "ok", none, "", some "p", some "u"⟩,
    refreshResult := none, chunkResp := fun _ => ⟨500, "", "server error"⟩ }

theorem c9_failure_characterization_and_abort_witness :
    (chunkEvents (upload_file wFail "tok").1).length ≤ 1 ∧
      ((upload_chunk ⟨500, "", "server error"⟩ 99).isOk = false ↔
        chunkSendFails ⟨500, "", "server error"⟩ = true) :=
  ⟨(c9_failure_characterization_and_abort.2 wFail "tok" 0 (by decide)).1,
   c9_failure_characterization_and_abort.1 ⟨500, "", "server error"⟩ 99⟩

/-- C1: when the first initiation fails and the failure passes the
token-error heuristic, the orchestrator refreshes; if the refresher
returns `none` the run terminates with the CredentialsExpired-style
RuntimeError and the transcript is exactly one init plus one refresh call
(no chunk is ever transmitted); if it returns a new token, initiation is
retried exactly once with that token — a second failure is surfaced
without any further refresh or retry, and on success the run continues
into the chunk loop, which performs no further refresh. -/
theorem c1_refresh_retry_policy (w : World) (tok e : String)
    (hf : w.isFile = true) (hs : 0 < w.fileSize)
    (h1 : init_upload (w.initResp (initRequest INIT_API tok w.fileSize (calc_chunk_params w.fileSize) none)) = .error e)
    (ha : tokenErrorHeuristic e = true) :
    (w.refreshResult = none →
      upload_file w tok =
        ([Event.initCall (initRequest INIT_API tok w.fileSize (calc_chunk_params w.fileSize) none),
          Event.refreshCall],
         .error (.runtimeError "トークンの自動更新に失敗しました。uv run auth.py で再認証してください。")))
    ∧ (∀ t, w.refreshResult = some t →
        (∀ e2, init_upload (w.initResp (initRequest INIT_API t w.fileSize (calc_chunk_params w.fileSize) none)) = .error e2 →
          upload_file w tok =
            ([Event.initCall (initRequest INIT_API tok w.fileSize (calc_chunk_params w.fileSize) none),
              Event.refreshCall,
              Event.initCall (initRequest INIT_API t w.fileSize (calc_chunk_params w.fileSize) none)],
             .error (.runtimeError e2)))
        ∧ (∀ pu, init_upload (w.initResp (initRequest INIT_API t w.fileSize (calc_chunk_params w.fileSize) none)) = .ok pu →
            (upload_file w tok).1 =
              Event.initCall (initRequest INIT_API tok w.fileSize (calc_chunk_params w.fileSize) none) ::
                Event.refreshCall ::
                Event.initCall (initRequest INIT_API t w.fileSize (calc_chunk_params w.fileSize) none) ::
                (chunkLoop w pu.2 w.fileSize (calc_chunk_params w.fileSize).1
                  (calc_chunk_params w.fileSize).2.toNat 0 0).1
            ∧ Event.refreshCall ∉ (chunkLoop w pu.2 w.fileSize (calc_chunk_params w.fileSize).1
                (calc_chunk_params w.fileSize).2.toNat 0 0).1)) := by
  unfold upload_file
  rw [if_neg (by simp [hf]), if_neg (by omega)]
  dsimp only
  rw [h1]
  dsimp only
  rw [if_pos ha]
  refine ⟨?_, ?_⟩
  · intro hr
    rw [hr]
  · intro t hr
    rw [hr]
    dsimp only
    refine ⟨?_, ?_⟩
    · intro e2 h2
      rw [h2]
    · intro pu h2
      rw [h2]
      dsimp only
      exact ⟨rfl, chunkLoop_no_refresh w pu.2 w.fileSize _ _ _ _⟩

def respExpired : InitResponse :=
  ⟨some "access_token_invalid", some "The access token is invalid or expired", "", none, none⟩

def wC1 : World :=
  { isFile := true, fileSize := 100, initResp := fun _ => respExpired,
    refreshResult := none, chunkResp := fun _ => ⟨201, "", ""⟩ }

theorem c1_refresh_retry_policy_witness :
    upload_file wC1 "tok" =
      ([Event.initCall (initRequest INIT_API "tok" 100 (100, 1) none), Event.refreshCall],
       .error (.runtimeError "トークンの自動更新に失敗しました。uv run auth.py で再認証してください。")) :=
  (c1_refresh_retry_policy wC1 "tok"
      "初期化失敗: access_token_invalid - The access token is invalid or expired"
      rfl (by decide) rfl (by decide)).1 rfl

def wC2 : World :=
  { isFile := true, fileSize := 100,
    initResp := fun _ => ⟨some "token_revoked", some "the session has been terminated", "", none, none⟩,
    refreshResult := some "newtok", chunkResp := fun _ => ⟨201, "", ""⟩ }

/-- C2 counterexample: a response whose code "token_revoked" contains
"token" (so the claimed spec heuristic classifies it AuthExpired), but
whose error text contains none of "access_token"/"invalid"/"expired" —
the code surfaces it without calling the refresher even though a refresh
token is available, so the claimed iff fails. -/
theorem c2_counterexample_token_substring :
    specTokenHeuristic "token_revoked" = true ∧
    tokenErrorHeuristic "初期化失敗: token_revoked - the session has been terminated" = false ∧
    upload_file wC2 "tok" =
      ([Event.initCall (initRequest INIT_API "tok" 100 (100, 1) none)],
       .error (.runtimeError "初期化失敗: token_revoked - the session has been terminated")) ∧
    Event.refreshCall ∉ (upload_file wC2 "tok").1 := by
  refine ⟨by decide, by decide, by decide, by decide⟩

/-- C2 amended: the refresher is invoked iff the RuntimeError text
"初期化失敗: code - message" contains "access_token", "invalid" or
"expired" case-insensitively (the substring "token" alone does not
qualify); a response with code "access_token_invalid" does qualify. -/
theorem c2_refresh_iff_heuristic (w : World) (tok e : String)
    (hf : w.isFile = true) (hs : 0 < w.fileSize)
    (h1 : init_upload (w.initResp (initRequest INIT_API tok w.fileSize (calc_chunk_params w.fileSize) none)) = .error e) :
    (Event.refreshCall ∈ (upload_file w tok).1 ↔ tokenErrorHeuristic e = true)
    ∧ tokenErrorHeuristic "初期化失敗: access_token_invalid - Please check the token" = true := by
  refine ⟨?_, by decide⟩
  unfold upload_file
  rw [if_neg (by simp [hf]), if_neg (by omega)]
  dsimp only
  rw [h1]
  dsimp only
  by_cases ha : tokenErrorHeuristic e = true
  · rw [if_pos ha]
    simp only [ha, iff_true]
    rcases hr : w.refreshResult with _ | t
    · dsimp only
      simp
    · dsimp only
      rcases h2 : init_upload (w.initResp (initRequest INIT_API t w.fileSize (calc_chunk_params w.fileSize) none)) with e2 | pu
      · dsimp only
        simp
      · dsimp only
        simp
  · rw [if_neg ha]
    simp [ha]

def wC2b : World :=
  { isFile := true, fileSize := 100, initResp := fun _ => respExpired,
    refreshResult := some "t2", chunkResp := fun _ => ⟨201, "", ""⟩ }

theorem c2_refresh_iff_heuristic_witness :
    Event.refreshCall ∈ (upload_file wC2b "tok").1 :=
  (c2_refresh_iff_heuristic wC2b "tok"
      "初期化失敗: access_token_invalid - The access token is invalid or expired"
      rfl (by decide) rfl).1.mpr (by decide)

/-- Helper for C3: stripping the chunk events back out of the mapped
ideal ranges recovers exactly the ranges. -/
lemma chunkEvents_map_ideal (url : String) (l : List (Int × Int)) :
    chunkEvents (l.map fun r => Event.chunkPut url r.1 (r.1 + r.2 - 1) r.2) = l := by
  induction l with
  | nil => rfl
  | cons a l ih =>
    simp only [chunkEvents] at ih ⊢
    simp only [List.filterMap_map] at ih
    simp [Event.chunkRange, ih]

/-- C3: a successful upload transmits chunks strictly in ascending index
order: chunk `i` starts at byte `i * chunkSize`, every chunk except the
last has length chunkSize, the final chunk carries all the remaining
bytes, and the transmitted ranges chain together to cover exactly
`[0, totalSize)` with no gap or overlap. -/
theorem c3_successful_upload_covers_file (w : World) (tok : String) (tr : List Event) (pid : String)
    (h : upload_file w tok = (tr, .ok pid)) :
    chunkEvents tr =
      (List.range (calc_chunk_params w.fileSize).2.toNat).map
        (fun (i : Nat) => ((i : Int) * (calc_chunk_params w.fileSize).1,
          if i = (calc_chunk_params w.fileSize).2.toNat - 1
          then w.fileSize - (i : Int) * (calc_chunk_params w.fileSize).1
          else (calc_chunk_params w.fileSize).1))
    ∧ chainCovers 0 (chunkEvents tr) w.fileSize = true := by
  rcases upload_file_shape w tok with ⟨_, hfail⟩ | ⟨hp, pre, url, htr, hpre, hok⟩
  · rw [h] at hfail
    simp at hfail
  · have hOk : (upload_file w tok).2.isOk = true := by rw [h]; simp
    rw [hok] at hOk
    have hloopok : (chunkLoop w url w.fileSize (calc_chunk_params w.fileSize).1
        (calc_chunk_params w.fileSize).2.toNat 0 0).2 = .ok () := by
      rcases hres : (chunkLoop w url w.fileSize (calc_chunk_params w.fileSize).1
          (calc_chunk_params w.fileSize).2.toNat 0 0).2 with e | u
      · rw [hres] at hOk
        simp at hOk
      · cases u
        rfl
    have hcs := calc_cs_pos w.fileSize hp
    have hcnt := calc_cnt_pos w.fileSize hp
    have hlast := calc_last_lt w.fileSize hp
    have hev := chunkLoop_ok_events w url hcs (calc_chunk_params w.fileSize).2.toNat 0 0
      (by simp) (by push_cast; linarith) hloopok
    rw [h] at htr
    simp only at htr
    rw [htr]
    have hsplit : chunkEvents (pre ++ (chunkLoop w url w.fileSize (calc_chunk_params w.fileSize).1
        (calc_chunk_params w.fileSize).2.toNat 0 0).1) =
        chunkEvents pre ++ chunkEvents (chunkLoop w url w.fileSize (calc_chunk_params w.fileSize).1
          (calc_chunk_params w.fileSize).2.toNat 0 0).1 := by
      simp [chunkEvents]
    rw [hsplit, hpre, List.nil_append, hev, chunkEvents_map_ideal]
    constructor
    · rw [idealRanges_eq_map]
      rw [← List.range_eq_range']
      simp
    · have hchain := idealRanges_chain w.fileSize (calc_chunk_params w.fileSize).1 hcs
        (calc_chunk_params w.fileSize).2.toNat 0 hcnt (by push_cast; linarith)
      simpa using hchain

def wC3 : World :=
  { isFile := true, fileSize := 100,
    initResp := fun _ => ⟨some "ok", none, "", some "pid1", some "u"⟩,
    refreshResult := none, chunkResp := fun _ => ⟨201, "", ""⟩ }

theorem c3_successful_upload_covers_file_witness :
    chainCovers 0 (chunkEvents (upload_file wC3 "tok").1) wC3.fileSize = true :=
  (c3_successful_upload_covers_file wC3 "tok" (upload_file wC3 "tok").1 "pid1" (by rfl)).2

/-- C10: on the refresh-and-retry path the second initiation request is
the first one with only the bearer token replaced: the video size, chunk
size and chunk count (computed once, before the first attempt) and — in
direct-post mode — the post-metadata block are identical. -/
theorem c10_retry_frame (w : World) (tok t : String)
    (hf : w.isFile = true) (hs : 0 < w.fileSize) (hr : w.refreshResult = some t) :
    (∀ e, init_upload (w.initResp (initRequest INIT_API tok w.fileSize (calc_chunk_params w.fileSize) none)) = .error e →
      tokenErrorHeuristic e = true →
      (upload_file w tok).1.take 3 =
        [Event.initCall (initRequest INIT_API tok w.fileSize (calc_chunk_params w.fileSize) none),
         Event.refreshCall,
         Event.initCall { initRequest INIT_API tok w.fileSize (calc_chunk_params w.fileSize) none with token := t }])
    ∧ (∀ e, init_direct_post (w.initResp (initRequest DIRECT_POST_API tok w.fileSize (calc_chunk_params w.fileSize) (some defaultPostInfo))) = .error e →
      tokenErrorHeuristic e = true →
      (go_public w tok).1.take 3 =
        [Event.initCall (initRequest DIRECT_POST_API tok w.fileSize (calc_chunk_params w.fileSize) (some defaultPostInfo)),
         Event.refreshCall,
         Event.initCall { initRequest DIRECT_POST_API tok w.fileSize (calc_chunk_params w.fileSize) (some defaultPostInfo) with token := t }]) := by
  constructor
  · intro e h1 ha
    unfold upload_file
    rw [if_neg (by simp [hf]), if_neg (by omega)]
    dsimp only
    rw [h1]
    dsimp only
    rw [if_pos ha, hr]
    dsimp only
    rcases h2 : init_upload (w.initResp (initRequest INIT_API t w.fileSize (calc_chunk_params w.fileSize) none)) with e2 | pu
    · rfl
    · rfl
  · intro e h1 ha
    unfold go_public
    rw [if_neg (by simp [hf]), if_neg (by omega)]
    dsimp only
    rw [h1]
    dsimp only
    rw [if_pos ha, hr]
    dsimp only
    rcases h2 : init_direct_post (w.initResp (initRequest DIRECT_POST_API t w.fileSize (calc_chunk_params w.fileSize) (some defaultPostInfo))) with e2 | pu
    · rfl
    · rfl

def wC10 : World :=
  { isFile := true, fileSize := 100, initResp := fun _ => respExpired,
    refreshResult := some "newtok", chunkResp := fun _ => ⟨201, "", ""⟩ }

theorem c10_retry_frame_witness :
    (upload_file wC10 "tok").1.take 3 =
      [Event.initCall (initRequest INIT_API "tok" 100 (100, 1) none),
       Event.refreshCall,
       Event.initCall (initRequest INIT_API "newtok" 100 (100, 1) none)] ∧
    (go_public wC10 "tok").1.take 3 =
      [Event.initCall (initRequest DIRECT_POST_API "tok" 100 (100, 1) (some defaultPostInfo)),
       Event.refreshCall,
       Event.initCall (initRequest DIRECT_POST_API "newtok" 100 (100, 1) (some defaultPostInfo))] :=
  ⟨(c10_retry_frame wC10 "tok" "newtok" rfl (by decide) rfl).1
      "初期化失敗: access_token_invalid - The access token is invalid or expired" rfl (by decide),
   (c10_retry_frame wC10 "tok" "newtok" rfl (by decide) rfl).2
      "初期化失敗: access_token_invalid - The access token is invalid or expired" rfl (by decide)⟩

end TikTok

